import Mathlib

/-!
Shallow embedding of the schema-graph visualization engine (the script logic
of the schema visualizer component): data model, relationship inference,
layout computation, drag clamping, edge-path geometry and SQL export.
Coordinates are modelled as rationals; JS strings as Lean strings.
-/

namespace SchemaViz

/-- A column descriptor as delivered by the schema provider.
JS optional boolean fields default to `false`; a missing or falsy
`default` field is modelled as `none`. -/
structure Column where
  name : String
  type : String
  primary : Bool := false
  unique : Bool := false
  nullable : Bool := false
  default : Option String := none
  deriving Repr, DecidableEq

/-- A table node.  In JS the geometry fields start `undefined` and are later
assigned by layout; `undefined` and `0` are both falsy there, so both are
modelled as `0`. -/
structure Table where
  name : String
  columns : List Column
  x : ℚ := 0
  y : ℚ := 0
  width : ℚ := 0
  height : ℚ := 0
  deriving Repr, DecidableEq

/-- An inferred relationship, as pushed by `detectRelationships`. -/
structure Relationship where
  «from» : String
  «to» : String
  column : String
  type : String
  deriving Repr, DecidableEq

/-- JS `s.endsWith(suffix)`, computed on the underlying character list. -/
def strEndsWith (s suffix : String) : Bool :=
  suffix.data.isSuffixOf s.data

/-- JS `s.replace(/_id$/, '')`: drop a final `_id` when present, else return
the string unchanged (the regex is anchored, so at most one occurrence). -/
def stripIdSuffix (s : String) : String :=
  if strEndsWith s "_id" then ⟨s.data.take (s.data.length - 3)⟩ else s

/-- `detectRelationships` of the component, as a function of the current
table list: for each table, for each column whose name ends in `_id` or is
literally `id`, strip the `_id` suffix and, when a table with the stripped
name exists, push one foreign-key relationship. -/
def detectRelationships (tables : List Table) : List Relationship :=
  tables.foldl (fun acc table =>
    table.columns.foldl (fun acc column =>
      if strEndsWith column.name "_id" || column.name == "id" then
        let referencedTable := stripIdSuffix column.name
        if tables.any (fun t => t.name == referencedTable) then
          acc ++ [{ «from» := referencedTable, «to» := table.name,
                    column := column.name, type := "foreign_key" }]
        else acc
      else acc) acc) []

/-- The zero-or-one relationships a single column of a single table
contributes to `detectRelationships`. -/
def columnRel (tables : List Table) (table : Table) (column : Column) :
    List Relationship :=
  if strEndsWith column.name "_id" || column.name == "id" then
    if tables.any (fun t => t.name == stripIdSuffix column.name) then
      [{ «from» := stripIdSuffix column.name, «to» := table.name,
         column := column.name, type := "foreign_key" }]
    else []
  else []

theorem foldl_concat {α β : Type} (f : α → List β) :
    ∀ (l : List α) (acc : List β),
      l.foldl (fun acc a => acc ++ f a) acc = acc ++ l.flatMap f := by
  intro l
  induction l with
  | nil => intro acc; simp
  | cons a l ih => intro acc; simp [ih, List.append_assoc]

theorem detect_inner_foldl (tables : List Table) (table : Table) :
    ∀ (acc : List Relationship),
      table.columns.foldl (fun acc column =>
        if strEndsWith column.name "_id" || column.name == "id" then
          let referencedTable := stripIdSuffix column.name
          if tables.any (fun t => t.name == referencedTable) then
            acc ++ [{ «from» := referencedTable, «to» := table.name,
                      column := column.name, type := "foreign_key" }]
          else acc
        else acc) acc
      = acc ++ table.columns.flatMap (columnRel tables table) := by
  intro acc
  have h : (fun (acc : List Relationship) column =>
      if strEndsWith column.name "_id" || column.name == "id" then
        let referencedTable := stripIdSuffix column.name
        if tables.any (fun t => t.name == referencedTable) then
          acc ++ [{ «from» := referencedTable, «to» := table.name,
                    column := column.name, type := "foreign_key" }]
        else acc
      else acc)
      = (fun acc column => acc ++ columnRel tables table column) := by
    funext acc column
    simp only [columnRel]
    split
    · split <;> simp
    · simp
  rw [h, foldl_concat]

/-- `detectRelationships` equals the flat concatenation, in table order then
column order, of each column's contribution. -/
theorem detectRelationships_flatMap (tables : List Table) :
    detectRelationships tables
      = tables.flatMap (fun table =>
          table.columns.flatMap (columnRel tables table)) := by
  unfold detectRelationships
  have h : (fun (acc : List Relationship) (table : Table) =>
      table.columns.foldl (fun acc column =>
        if strEndsWith column.name "_id" || column.name == "id" then
          let referencedTable := stripIdSuffix column.name
          if tables.any (fun t => t.name == referencedTable) then
            acc ++ [{ «from» := referencedTable, «to» := table.name,
                      column := column.name, type := "foreign_key" }]
          else acc
        else acc) acc)
      = (fun acc table =>
          acc ++ table.columns.flatMap (columnRel tables table)) := by
    funext acc table
    exact detect_inner_foldl tables table acc
  rw [h, foldl_concat]
  simp

theorem strEndsWith_append_id (s : String) :
    strEndsWith (s ++ "_id") "_id" = true := by
  have h : ("_id" : String).data <:+ (s ++ "_id").data := by
    rw [String.data_append]
    exact List.suffix_append s.data ("_id" : String).data
  simp [strEndsWith, List.isSuffixOf_iff_suffix, h]

theorem stripIdSuffix_append (s : String) :
    stripIdSuffix (s ++ "_id") = s := by
  unfold stripIdSuffix
  rw [strEndsWith_append_id]
  simp only [if_true]
  apply String.ext
  show ((s ++ "_id").data.take ((s ++ "_id").data.length - 3)) = s.data
  rw [String.data_append]
  have hd : ("_id" : String).data = ['_', 'i', 'd'] := by decide
  rw [hd]
  have hl : (s.data ++ ['_', 'i', 'd']).length - 3 = s.data.length := by
    simp
  rw [hl]
  exact List.take_left s.data ['_', 'i', 'd']

/-- `applyAutoLayout`, with `Math.cos` and `Math.sin` abstracted: `cosf a`
(resp. `sinf a`) stands for the cosine (resp. sine) of `a·π`, the code's
angle `index * 2 * Math.PI / N` being carried as the rational coefficient
`index * 2 / N` of π.  Places every table on a circle of radius one third of
the smaller canvas dimension around the canvas center, and derives its size
from its column count. -/
def applyAutoLayout (cosf sinf : ℚ → ℚ) (svgWidth svgHeight : ℚ)
    (tables : List Table) : List Table :=
  let centerX := svgWidth / 2
  let centerY := svgHeight / 2
  let radius := min svgWidth svgHeight / 3
  tables.enum.map (fun p =>
    let index := p.1
    let table := p.2
    let angle : ℚ := ((index : ℚ) * 2) / (tables.length : ℚ)
    { table with
      x := centerX + radius * cosf angle - 140
      y := centerY + radius * sinf angle - 100
      width := 280
      height := 200 + (table.columns.length : ℚ) * 25 })

/-- The default manual-mode seeding in `loadSchema`: a row/column grid
(`index % 3` columns, `Math.floor(index / 3)` rows). -/
def defaultSeed (tables : List Table) : List Table :=
  tables.enum.map (fun p =>
    let index := p.1
    let table := p.2
    { table with
      x := 100 + ((index % 3 : ℕ) : ℚ) * 350
      y := 100 + ((index / 3 : ℕ) : ℚ) * 250
      width := 280
      height := 200 + (table.columns.length : ℚ) * 25 })

/-- `handleDrag`: the unclamped target is
`(clientX − containerLeft − offX, clientY − containerTop − offY)`, then both
axes are clamped with `Math.max(0, Math.min(canvasDim − nodeDim, ·))`. -/
def handleDrag (svgWidth svgHeight clientX clientY containerLeft containerTop
    offX offY : ℚ) (dragTable : Table) : Table :=
  let x := clientX - containerLeft - offX
  let y := clientY - containerTop - offY
  { dragTable with
    x := max 0 (min (svgWidth - dragTable.width) x)
    y := max 0 (min (svgHeight - dragTable.height) y) }

/-- The component state touched by `loadSchema` and `detectRelationships`. -/
structure VizState where
  tables : List Table
  relationships : List Relationship
  loading : Bool
  deriving Repr, DecidableEq

/-- What the provider round-trip produced: `failure` when `axios.get` threw,
otherwise the (possibly absent) `response.data.tables` field. -/
inductive FetchResult where
  | failure
  | success (tablesField : Option (List Table))
  deriving Repr, DecidableEq

/-- `detectRelationships()` as a state update: it first clears
`relationships.value` and then repopulates it from the current tables, so the
new relationship list depends only on the tables. -/
def detectRelationshipsUpdate (s : VizState) : VizState :=
  { s with relationships := detectRelationships s.tables }

/-- `loadSchema`: on a successful round-trip the table list is replaced by
`response.data.tables || []`, laid out (auto mode, or grid seeding when the
first table's `x` is falsy — `undefined` and `0` both being falsy in JS,
modelled as `0`), and relationships are recomputed; when the round-trip
throws, the `catch` block only logs, so the state is left unchanged except
for the `finally` reset of `loading`. -/
def loadSchema (cosf sinf : ℚ → ℚ) (svgWidth svgHeight : ℚ)
    (autoLayout : Bool) (fetch : FetchResult) (s : VizState) : VizState :=
  match fetch with
  | .failure => { s with loading := false }
  | .success tablesField =>
      let tables := tablesField.getD []
      let tables :=
        if autoLayout then
          applyAutoLayout cosf sinf svgWidth svgHeight tables
        else if ((tables.head?.map Table.x).getD 0 == 0) then
          defaultSeed tables
        else tables
      { tables := tables
        relationships := detectRelationships tables
        loading := false }

/-- A point on the canvas. -/
structure Point where
  x : ℚ
  y : ℚ
  deriving Repr, DecidableEq

/-- The value of the SVG path string built by `calculateConnectionPath`:
either the empty string or `M start C c1, c2, stop`. -/
inductive PathSpec where
  | empty
  | cubic (start c1 c2 stop : Point)
  deriving Repr, DecidableEq

/-- `calculateConnectionPath`: resolve both endpoint tables by name; return
the empty path when either is missing, otherwise the cubic curve
`M fromX fromY C midX fromY, midX toY, toX toY`. -/
def calculateConnectionPath (tables : List Table)
    (relationship : Relationship) : PathSpec :=
  match tables.find? (fun t => t.name == relationship.«from»),
        tables.find? (fun t => t.name == relationship.«to») with
  | some fromTable, some toTable =>
      let fromX := fromTable.x + fromTable.width
      let fromY := fromTable.y + fromTable.height / 2
      let toX := toTable.x
      let toY := toTable.y + toTable.height / 2
      let midX := (fromX + toX) / 2
      .cubic ⟨fromX, fromY⟩ ⟨midX, fromY⟩ ⟨midX, toY⟩ ⟨toX, toY⟩
  | _, _ => .empty

/-- `exportAsSQL`, as a function of the generation timestamp and the current
tables (the browser-download plumbing at the end is outside the embedding).
The string is accumulated exactly as the code appends it. -/
def exportAsSQL (now : String) (tables : List Table) : String :=
  let sql := "-- Database Schema Export\n" ++ ("-- Generated: " ++ now ++ "\n\n")
  tables.foldl (fun sql table =>
    let sql := sql ++ ("-- Table: " ++ table.name ++ "\n")
    let sql := sql ++ ("CREATE TABLE " ++ table.name ++ " (\n")
    let sql := table.columns.enum.foldl (fun sql p =>
      let index := p.1
      let col := p.2
      sql ++ ("  " ++ col.name ++ " " ++ col.type)
        ++ (if col.primary then " PRIMARY KEY" else "")
        ++ (if col.unique then " UNIQUE" else "")
        ++ (if !col.nullable then " NOT NULL" else "")
        ++ (match col.default with
            | some d => " DEFAULT " ++ d
            | none => "")
        ++ (if index < table.columns.length - 1 then "," else "")
        ++ "\n") sql
    sql ++ ");\n\n") sql

/-- Spec-side single column definition: the column name, its type keyword,
then each of `PRIMARY KEY`, `UNIQUE`, `NOT NULL` and `DEFAULT <value>` that
applies to the column. -/
def sqlColumnDef (col : Column) : String :=
  "  " ++ col.name ++ " " ++ col.type
    ++ (if col.primary then " PRIMARY KEY" else "")
    ++ (if col.unique then " UNIQUE" else "")
    ++ (if !col.nullable then " NOT NULL" else "")
    ++ (match col.default with
        | some d => " DEFAULT " ++ d
        | none => "")

/-- Spec-side column block: one column definition per line, comma-separated
(a comma after every definition except the last). -/
def sqlColumnLines : List Column → String
  | [] => ""
  | [col] => sqlColumnDef col ++ "\n"
  | col :: rest => sqlColumnDef col ++ ",\n" ++ sqlColumnLines rest

/-- Spec-side per-table statement: comment line, `CREATE TABLE name (`, the
column block, and the terminated statement `);`. -/
def sqlTableStmt (table : Table) : String :=
  "-- Table: " ++ table.name ++ "\n" ++ ("CREATE TABLE " ++ table.name ++ " (\n")
    ++ sqlColumnLines table.columns ++ ");\n\n"

/-- Spec-side export header. -/
def sqlHeader (now : String) : String :=
  "-- Database Schema Export\n" ++ ("-- Generated: " ++ now ++ "\n\n")

/-- Concatenation of a list of strings, in order. -/
def strConcat : List String → String
  | [] => ""
  | s :: rest => s ++ strConcat rest

/-- The per-column emission rule as the spec's claim words it: only
`_id`-suffixed column names generate edges, and a column literally named
`id` produces no relationship by itself. -/
def columnRelClaimC1 (tables : List Table) (table : Table) (column : Column) :
    List Relationship :=
  if strEndsWith column.name "_id" then
    if tables.any (fun t => t.name == stripIdSuffix column.name) then
      [{ «from» := stripIdSuffix column.name, «to» := table.name,
         column := column.name, type := "foreign_key" }]
    else []
  else []

/-- A one-table model whose table is literally named `id` with a column
literally named `id`. -/
def idSelfModel : List Table :=
  [{ name := "id", columns := [{ name := "id", type := "INT", primary := true }] }]

/-- C1 counterexample: on a model containing a table named `id`, the code
emits a relationship for the column literally named `id` (its `_id`-strip is
`id` itself, which names an existing table), while the claim prescribes that
such a column produces no relationship. -/
theorem detect_id_column_cex :
    detectRelationships idSelfModel
      = [{ «from» := "id", «to» := "id", column := "id", type := "foreign_key" }]
    ∧ idSelfModel.flatMap
        (fun table => table.columns.flatMap (columnRelClaimC1 idSelfModel table))
      = [] := by
  constructor <;> decide

/-- C1 (amended): for every column, exactly one relationship
`{from := strippedName, to := T.name, column := columnName, type := foreign_key}`
is emitted when the column's name ends in `_id` or is literally `id` and a
table named like the `_id`-stripped column name exists in the model, and zero
relationships are emitted for that column otherwise; in particular a column
literally named `id` (whose strip is `id` itself) emits a relationship
exactly when a table named `id` exists. -/
theorem detect_per_column_amended (tables : List Table) :
    detectRelationships tables
      = tables.flatMap (fun table => table.columns.flatMap (fun column =>
          if strEndsWith column.name "_id" || column.name == "id" then
            if tables.any (fun t => t.name == stripIdSuffix column.name) then
              [{ «from» := stripIdSuffix column.name, «to» := table.name,
                 column := column.name, type := "foreign_key" }]
            else []
          else [])) := by
  rw [detectRelationships_flatMap]
  rfl

/-- The `users` table of the end-to-end scenario. -/
def usersTable : Table :=
  { name := "users", columns := [{ name := "id", type := "INT", primary := true }] }

/-- The `orders` table of the end-to-end scenario. -/
def ordersTable : Table :=
  { name := "orders",
    columns := [{ name := "id", type := "INT", primary := true },
                { name := "user_id", type := "INT" }] }

/-- C2 counterexample: on the users/orders model the code emits no
relationship at all — stripping `_id` from `user_id` yields `user`, and no
table is named `user` (the table is named `users`) — contradicting the
claimed single relationship `{from := users, to := orders, column := user_id}`. -/
theorem users_orders_cex :
    detectRelationships [usersTable, ordersTable]
      ≠ [{ «from» := "users", «to» := "orders", column := "user_id",
           type := "foreign_key" }] := by
  decide

/-- C2 (amended): when the model is loaded with exactly the two tables
`users` (columns: id) and `orders` (columns: id, user_id), relationship
inference yields no relationship, because the candidate name stripped from
`user_id` is `user`, which names no table in the model. -/
theorem users_orders_amended :
    detectRelationships [usersTable, ordersTable] = [] := by
  decide

/-- C5: relationship inference is a pure function of the loaded tables — as
a state update it is idempotent (re-running it on the unchanged model leaves
the state fixed, the relationship list being fully recomputed rather than
appended to), and its output is the concatenation, following table order and
then column order within each table, of the per-column contributions. -/
theorem detect_pure_ordered (s : VizState) :
    detectRelationshipsUpdate (detectRelationshipsUpdate s)
      = detectRelationshipsUpdate s
    ∧ (detectRelationshipsUpdate s).relationships
      = s.tables.flatMap (fun table =>
          table.columns.flatMap (columnRel s.tables table)) := by
  constructor
  · simp [detectRelationshipsUpdate]
  · simp [detectRelationshipsUpdate, detectRelationships_flatMap]

/-- C10: a table named `X` containing a column named `X_id` yields the
self-referencing relationship `{from := X, to := X, column := X_id}`. -/
theorem self_reference_rel (tables : List Table) (t : Table) (c : Column)
    (ht : t ∈ tables) (hc : c ∈ t.columns) (hname : c.name = t.name ++ "_id") :
    { «from» := t.name, «to» := t.name, column := c.name,
      type := "foreign_key" } ∈ detectRelationships tables := by
  rw [detectRelationships_flatMap]
  refine List.mem_flatMap.mpr ⟨t, ht, List.mem_flatMap.mpr ⟨c, hc, ?_⟩⟩
  unfold columnRel
  rw [hname, strEndsWith_append_id, stripIdSuffix_append]
  have hany : tables.any (fun tb => tb.name == t.name) = true :=
    List.any_eq_true.mpr ⟨t, ht, by simp⟩
  simp [hany]

/-- A table whose column `users_id` names its own table. -/
def selfRefTable : Table :=
  { name := "users", columns := [{ name := "users_id", type := "INT" }] }

/-- Witness for C10 at a concrete one-table model. -/
theorem self_reference_rel_witness :
    { «from» := "users", «to» := "users", column := "users_id",
      type := "foreign_key" } ∈ detectRelationships [selfRefTable] :=
  self_reference_rel [selfRefTable] selfRefTable
    { name := "users_id", type := "INT" }
    (by simp) (by simp [selfRefTable]) (by decide)

/-- A stand-in for `Math.cos` on coefficients of π that is exact at the one
angle used when a single table is laid out: `cos (0·π) = 1`. -/
def cosAt0 : ℚ → ℚ := fun _ => 1

/-- A stand-in for `Math.sin` on coefficients of π that is exact at the one
angle used when a single table is laid out: `sin (0·π) = 0`. -/
def sinAt0 : ℚ → ℚ := fun _ => 0

/-- The auto layout as the claim words it: identical placement except that
the top-left corner is offset by half the node size on both axes,
`(width/2, height/2)` with `width = 280` and `height = 200 + 25·columns`. -/
def applyAutoLayoutClaimC3 (cosf sinf : ℚ → ℚ) (svgWidth svgHeight : ℚ)
    (tables : List Table) : List Table :=
  let centerX := svgWidth / 2
  let centerY := svgHeight / 2
  let radius := min svgWidth svgHeight / 3
  tables.enum.map (fun p =>
    let index := p.1
    let table := p.2
    let angle : ℚ := ((index : ℚ) * 2) / (tables.length : ℚ)
    let width : ℚ := 280
    let height : ℚ := 200 + (table.columns.length : ℚ) * 25
    { table with
      x := centerX + radius * cosf angle - width / 2
      y := centerY + radius * sinf angle - height / 2
      width := width
      height := height })

/-- C3 counterexample: laying out the single one-column `users` table on a
1200×800 canvas (angle 0, where `sin = 0`), the code puts the top-left y at
`800/2 − 100 = 300`, while the claimed `height/2 = 225/2` offset would put
it at `800/2 − 225/2 = 575/2`; the y offset is the constant 100, not half
the node height. -/
theorem autoLayout_y_offset_cex :
    (applyAutoLayout cosAt0 sinAt0 1200 800 [usersTable]).map Table.y = [300]
    ∧ (applyAutoLayoutClaimC3 cosAt0 sinAt0 1200 800 [usersTable]).map Table.y
      = [575 / 2]
    ∧ (300 : ℚ) ≠ 575 / 2 := by
  refine ⟨?_, ?_, by norm_num⟩
  · simp [applyAutoLayout, sinAt0]
    norm_num
  · simp [applyAutoLayoutClaimC3, sinAt0, usersTable]
    norm_num

/-- C3 (amended): table i (0-indexed) of N is placed at angle `2π·i/N` on
the circle of radius `min(W,H)/3` centered at `(W/2, H/2)`, with top-left
corner `(centerX + radius·cos θ − 140, centerY + radius·sin θ − 100)` —
horizontally this equals the claimed `width/2 = 140` offset, but vertically
the offset is the constant 100 rather than `height/2` — and with size
`width = 280`, `height = 200 + 25·columnCount`. -/
theorem applyAutoLayout_amended (cosf sinf : ℚ → ℚ) (w h : ℚ)
    (tables : List Table) (i : ℕ) (hi : i < tables.length) :
    (applyAutoLayout cosf sinf w h tables)[i]? =
      some { tables.get ⟨i, hi⟩ with
             x := w / 2 + min w h / 3
                    * cosf (((i : ℚ) * 2) / (tables.length : ℚ)) - 140
             y := h / 2 + min w h / 3
                    * sinf (((i : ℚ) * 2) / (tables.length : ℚ)) - 100
             width := 280
             height := 200 + (((tables.get ⟨i, hi⟩).columns.length : ℕ) : ℚ) * 25 } := by
  simp [applyAutoLayout, List.getElem?_enum, List.getElem?_eq_getElem hi,
    List.get_eq_getElem]

/-- Witness for C3 (amended) at the one-table users model. -/
theorem applyAutoLayout_amended_witness :
    (applyAutoLayout cosAt0 sinAt0 1200 800 [usersTable])[0]? =
      some { usersTable with
             x := 2180 / 3
             y := 300
             width := 280
             height := 225 } := by
  rw [applyAutoLayout_amended cosAt0 sinAt0 1200 800 [usersTable] 0
    (by norm_num)]
  simp [cosAt0, sinAt0, usersTable]
  norm_num

/-- A zero-column table used for the bounds counterexample. -/
def boundsCexTable : Table := { name := "users", columns := [] }

/-- C4 counterexample: auto layout performs no clamping — on a 300×300
canvas the single zero-column table is placed at
`x = 150 + 100·cos 0 − 140 = 110` with `width = 280`, violating the claimed
bound `x ≤ canvasWidth − width = 20`. -/
theorem autoLayout_unclamped_cex :
    (applyAutoLayout cosAt0 sinAt0 300 300 [boundsCexTable]).map Table.x = [110]
    ∧ (applyAutoLayout cosAt0 sinAt0 300 300 [boundsCexTable]).map Table.width
      = [280]
    ∧ ¬ ((110 : ℚ) ≤ 300 - 280) := by
  refine ⟨?_, ?_, by norm_num⟩
  · simp [applyAutoLayout, cosAt0, boundsCexTable]
    norm_num
  · simp [applyAutoLayout, boundsCexTable]

/-- C4 (amended): only drag operations clamp — after any drag of a table
whose node fits the canvas, the position satisfies
`0 ≤ x ≤ canvasWidth − width` and `0 ≤ y ≤ canvasHeight − height`, however
far out of bounds the pointer target lies; layout operations (auto placement
and grid seeding) do not clamp and can leave a table out of bounds. -/
theorem handleDrag_clamped (svgWidth svgHeight clientX clientY containerLeft
    containerTop offX offY : ℚ) (t : Table)
    (hw : t.width ≤ svgWidth) (hh : t.height ≤ svgHeight) :
    0 ≤ (handleDrag svgWidth svgHeight clientX clientY containerLeft
          containerTop offX offY t).x
    ∧ (handleDrag svgWidth svgHeight clientX clientY containerLeft
        containerTop offX offY t).x ≤ svgWidth - t.width
    ∧ 0 ≤ (handleDrag svgWidth svgHeight clientX clientY containerLeft
          containerTop offX offY t).y
    ∧ (handleDrag svgWidth svgHeight clientX clientY containerLeft
        containerTop offX offY t).y ≤ svgHeight - t.height := by
  refine ⟨le_max_left _ _, max_le (by linarith) (min_le_left _ _),
          le_max_left _ _, max_le (by linarith) (min_le_left _ _)⟩

/-- A 280×225 node used for the drag scenarios. -/
def dragDemoTable : Table :=
  { name := "orders", columns := [], x := 100, y := 100,
    width := 280, height := 225 }

/-- Witness for C4 (amended): the clamp bounds hold for a concrete
out-of-bounds drag of a 280×225 node on a 1200×800 canvas. -/
theorem handleDrag_clamped_witness :
    0 ≤ (handleDrag 1200 800 (-50) 900 0 0 0 0 dragDemoTable).x
    ∧ (handleDrag 1200 800 (-50) 900 0 0 0 0 dragDemoTable).x
      ≤ 1200 - dragDemoTable.width
    ∧ 0 ≤ (handleDrag 1200 800 (-50) 900 0 0 0 0 dragDemoTable).y
    ∧ (handleDrag 1200 800 (-50) 900 0 0 0 0 dragDemoTable).y
      ≤ 800 - dragDemoTable.height :=
  handleDrag_clamped 1200 800 (-50) 900 0 0 0 0 dragDemoTable
    (by norm_num [dragDemoTable]) (by norm_num [dragDemoTable])

/-- C9: dragging a 280×225 node to the unclamped target `(-50, 900)` on a
1200×800 canvas clamps the position to `(0, 575)`. -/
theorem drag_clamp_example :
    handleDrag 1200 800 (-50) 900 0 0 0 0 dragDemoTable
      = { dragDemoTable with x := 0, y := 575 } := by
  simp [handleDrag, dragDemoTable]
  norm_num

/-- C6 counterexample: when the provider round-trip fails while a previous
load had populated the model, the `catch` branch leaves the old (non-empty)
table list in place — the model is not observable as zero tables. -/
theorem loadSchema_failure_cex :
    (loadSchema cosAt0 sinAt0 1200 800 true .failure
        { tables := [usersTable], relationships := [], loading := true }).tables
      = [usersTable]
    ∧ ([usersTable] : List Table) ≠ [] := by
  exact ⟨rfl, by simp⟩

/-- C6 (amended): `loadSchema` replaces the model atomically — when the
response carries no `tables` field the model is cleared to zero tables and
zero relationships, and on a successful response the relationship list is
exactly the one recomputed from the newly installed tables (never a partial
mix); but when the round-trip itself fails, the previous model is left
unchanged, which is observable as zero tables only if it was already empty. -/
theorem loadSchema_amended (cosf sinf : ℚ → ℚ) (w h : ℚ) (auto : Bool)
    (s : VizState) :
    (loadSchema cosf sinf w h auto .failure s).tables = s.tables
    ∧ (loadSchema cosf sinf w h auto (.success none) s).tables = []
    ∧ (loadSchema cosf sinf w h auto (.success none) s).relationships = []
    ∧ ∀ ts, (loadSchema cosf sinf w h auto (.success (some ts)) s).relationships
        = detectRelationships
            (loadSchema cosf sinf w h auto (.success (some ts)) s).tables := by
  refine ⟨rfl, ?_, ?_, fun ts => rfl⟩
  · cases auto <;> simp [loadSchema, applyAutoLayout, defaultSeed]
  · cases auto <;> simp [loadSchema, applyAutoLayout, defaultSeed] <;> rfl

/-- The right-center edge point of a table's rectangle. -/
def rightCenter (t : Table) : Point := ⟨t.x + t.width, t.y + t.height / 2⟩

/-- The left-center edge point of a table's rectangle. -/
def leftCenter (t : Table) : Point := ⟨t.x, t.y + t.height / 2⟩

/-- C7: the edge path generator returns the empty path whenever either
endpoint table is missing from the current table list, and otherwise a cubic
curve from the right-center edge of the `from` rectangle to the left-center
edge of the `to` rectangle whose two control points sit at the horizontal
midpoint of the endpoints, each at its respective endpoint's y. -/
theorem connectionPath_spec (tables : List Table) (rel : Relationship) :
    ((tables.find? (fun t => t.name == rel.«from») = none
      ∨ tables.find? (fun t => t.name == rel.«to») = none) →
        calculateConnectionPath tables rel = .empty)
    ∧ (∀ ft tt, tables.find? (fun t => t.name == rel.«from») = some ft →
        tables.find? (fun t => t.name == rel.«to») = some tt →
        calculateConnectionPath tables rel =
          .cubic (rightCenter ft)
                 ⟨((rightCenter ft).x + (leftCenter tt).x) / 2, (rightCenter ft).y⟩
                 ⟨((rightCenter ft).x + (leftCenter tt).x) / 2, (leftCenter tt).y⟩
                 (leftCenter tt)) := by
  constructor
  · intro hmiss
    unfold calculateConnectionPath
    cases hf : tables.find? (fun t => t.name == rel.«from») with
    | none =>
        cases ht : tables.find? (fun t => t.name == rel.«to») <;> rfl
    | some ft =>
        cases ht : tables.find? (fun t => t.name == rel.«to») with
        | none => rfl
        | some tt =>
            rcases hmiss with hmiss | hmiss
            · rw [hf] at hmiss; cases hmiss
            · rw [ht] at hmiss; cases hmiss
  · intro ft tt hf ht
    unfold calculateConnectionPath
    rw [hf, ht]
    rfl

/-- Witness for C7: the empty-path branch on an empty table list, and the
cubic branch on the concrete users/orders pair. -/
theorem connectionPath_spec_witness :
    calculateConnectionPath []
        { «from» := "users", «to» := "orders", column := "user_id",
          type := "foreign_key" } = .empty
    ∧ calculateConnectionPath [dragDemoTable]
        { «from» := "orders", «to» := "orders", column := "orders_id",
          type := "foreign_key" } =
        .cubic (rightCenter dragDemoTable)
               ⟨((rightCenter dragDemoTable).x + (leftCenter dragDemoTable).x) / 2,
                (rightCenter dragDemoTable).y⟩
               ⟨((rightCenter dragDemoTable).x + (leftCenter dragDemoTable).x) / 2,
                (leftCenter dragDemoTable).y⟩
               (leftCenter dragDemoTable) :=
  ⟨(connectionPath_spec [] _).1 (Or.inl rfl),
   (connectionPath_spec [dragDemoTable] _).2 dragDemoTable dragDemoTable rfl rfl⟩

theorem strFoldl {α : Type} (f : α → String) :
    ∀ (l : List α) (s : String),
      l.foldl (fun s a => s ++ f a) s = s ++ strConcat (l.map f) := by
  intro l
  induction l with
  | nil => intro s; simp [strConcat, String.append_empty]
  | cons a l ih => intro s; simp [strConcat, ih, String.append_assoc]

theorem enumLines (total : ℕ) :
    ∀ (rest : List Column) (start : ℕ), start + rest.length = total →
      strConcat ((List.enumFrom start rest).map (fun p =>
        sqlColumnDef p.2 ++ (if p.1 < total - 1 then "," else "") ++ "\n"))
      = sqlColumnLines rest := by
  intro rest
  induction rest with
  | nil => intro start h; rfl
  | cons col rest ih =>
      intro start h
      cases rest with
      | nil =>
          have hlt : ¬ (start < total - 1) := by
            simp at h
            omega
          simp [List.enumFrom, strConcat, sqlColumnLines, hlt,
            String.append_empty]
      | cons c2 tl =>
          have hlt : start < total - 1 := by
            simp at h
            omega
          have hc : ("," : String) ++ "\n" = ",\n" := rfl
          have ih2 := ih (start + 1) (by simp at h ⊢; omega)
          simp [List.enumFrom, strConcat, sqlColumnLines, hlt,
            String.append_assoc, hc] at ih2 ⊢
          rw [ih2]

/-- C8: the SQL exporter emits, for every table in order, a terminated
`CREATE TABLE` statement listing every column with its type keyword followed
by each of `PRIMARY KEY`, `UNIQUE`, `NOT NULL` and `DEFAULT <value>` that
applies, one column definition per line, comma-separated. -/
theorem exportAsSQL_spec (now : String) (tables : List Table) :
    exportAsSQL now tables = sqlHeader now ++ strConcat (tables.map sqlTableStmt) := by
  unfold exportAsSQL sqlHeader
  have houter : (fun (sql : String) (table : Table) =>
      let sql := sql ++ ("-- Table: " ++ table.name ++ "\n")
      let sql := sql ++ ("CREATE TABLE " ++ table.name ++ " (\n")
      let sql := table.columns.enum.foldl (fun sql p =>
        let index := p.1
        let col := p.2
        sql ++ ("  " ++ col.name ++ " " ++ col.type)
          ++ (if col.primary then " PRIMARY KEY" else "")
          ++ (if col.unique then " UNIQUE" else "")
          ++ (if !col.nullable then " NOT NULL" else "")
          ++ (match col.default with
              | some d => " DEFAULT " ++ d
              | none => "")
          ++ (if index < table.columns.length - 1 then "," else "")
          ++ "\n") sql
      sql ++ ");\n\n")
      = (fun sql table => sql ++ sqlTableStmt table) := by
    funext sql table
    have hfun : (fun (sql : String) (p : ℕ × Column) =>
        let index := p.1
        let col := p.2
        sql ++ ("  " ++ col.name ++ " " ++ col.type)
          ++ (if col.primary then " PRIMARY KEY" else "")
          ++ (if col.unique then " UNIQUE" else "")
          ++ (if !col.nullable then " NOT NULL" else "")
          ++ (match col.default with
              | some d => " DEFAULT " ++ d
              | none => "")
          ++ (if index < table.columns.length - 1 then "," else "")
          ++ "\n")
        = (fun sql p =>
            sql ++ (sqlColumnDef p.2
              ++ (if p.1 < table.columns.length - 1 then "," else "")
              ++ "\n")) := by
      funext sql p
      simp [sqlColumnDef, String.append_assoc]
    dsimp only
    rw [hfun, strFoldl]
    have hlines :
        strConcat ((List.enumFrom 0 table.columns).map (fun p =>
          sqlColumnDef p.2
            ++ (if p.1 < table.columns.length - 1 then "," else "") ++ "\n"))
        = sqlColumnLines table.columns :=
      enumLines table.columns.length table.columns 0 (by simp)
    rw [List.enum]
    rw [hlines]
    simp [sqlTableStmt, String.append_assoc]
  rw [houter, strFoldl]

end SchemaViz
